import Mathlib

/-!
Verification development for the layered image compositor.

The two state stores of the program — the canvas/viewport store
(`src/store/canvasKitStore.ts`) and the layer store
(`src/store/imageStore.ts`) — are shallowly embedded below.  JavaScript
numbers are modelled by the rationals `ℚ` (exact arithmetic; the source
computes with binary floating point, so float results agree up to the usual
rounding).  Zustand actions become pure functions on explicit state records;
registered callbacks become boolean "handler registered" flags plus an
explicit event log listing the callback invocations an action performs.
-/

namespace P5

/- Batteries marks the `Rat` arithmetic operations `@[irreducible]`, which
prevents `decide` from evaluating the embedded operations on concrete
rational inputs.  Restore the default reducibility for this file so concrete
scenarios can be settled by evaluation. -/
attribute [local semireducible] Rat.add Rat.mul Rat.inv Rat.sub

/-! ## Canvas/viewport store (`canvasKitStore.ts`) -/

/-- The per-canvas pan/zoom transform (`interface CanvasTransform`). -/
structure CanvasTransform where
  x : ℚ
  y : ℚ
  scale : ℚ
deriving DecidableEq, Repr

/-- JavaScript `Math.max` on two numbers (no NaN in the rational model). -/
def jsMax (a b : ℚ) : ℚ := if a ≤ b then b else a

/-- JavaScript `Math.min` on two numbers (no NaN in the rational model). -/
def jsMin (a b : ℚ) : ℚ := if a ≤ b then a else b

/-- `handleWheel` from `canvasKitStore.ts` (lines 228–249).  With the ctrl
modifier held it zooms about the cursor: `scaleFactor = 1 - deltaY * 0.001`,
the new scale is clamped to `[0.1, 10]`, and `x`/`y` are shifted so the
content point under the cursor stays fixed.  Without ctrl it pans
vertically: `transform.y -= deltaY`. -/
def handleWheel (deltaY : ℚ) (isCtrlPressed : Bool) (clientX clientY : ℚ)
    (t : CanvasTransform) : CanvasTransform :=
  if isCtrlPressed then
    let scaleFactor := 1 - deltaY * (1 / 1000)
    let oldScale := t.scale
    let newScale := jsMax (1 / 10) (jsMin 10 (oldScale * scaleFactor))
    let mouseX := clientX - t.x
    let mouseY := clientY - t.y
    { x := t.x + (mouseX - mouseX * newScale / oldScale),
      y := t.y + (mouseY - mouseY * newScale / oldScale),
      scale := newScale }
  else
    { t with y := t.y - deltaY }

/-- `screenToContent` per spec §4.1: the screen→content coordinate map
`((sx - t.x) / t.scale, (sy - t.y) / t.scale)`. -/
def screenToContent (screenX screenY : ℚ) (t : CanvasTransform) : ℚ × ℚ :=
  ((screenX - t.x) / t.scale, (screenY - t.y) / t.scale)

/-- A wheel input event as consumed by `handleWheel`. -/
structure WheelEvent where
  deltaY : ℚ
  isCtrlPressed : Bool
  clientX : ℚ
  clientY : ℚ
deriving DecidableEq, Repr

/-- The list of successive transforms produced by a sequence of wheel
events (state after each event, in order). -/
def wheelTrace (t : CanvasTransform) : List WheelEvent → List CanvasTransform
  | [] => []
  | e :: es =>
    let t' := handleWheel e.deltaY e.isCtrlPressed e.clientX e.clientY t
    t' :: wheelTrace t' es

theorem le_jsMax_left (a b : ℚ) : a ≤ jsMax a b := by
  unfold jsMax; split
  · assumption
  · exact le_refl a

theorem jsMax_le {a b c : ℚ} (ha : a ≤ c) (hb : b ≤ c) : jsMax a b ≤ c := by
  unfold jsMax; split
  · exact hb
  · exact ha

theorem jsMin_le_left (a b : ℚ) : jsMin a b ≤ a := by
  unfold jsMin; split
  · exact le_refl a
  · exact le_of_not_le (by assumption)

/-- The clamped scale produced by a ctrl-wheel step is in `[0.1, 10]`,
whatever the unclamped product was. -/
theorem clamp_mem (v : ℚ) :
    1 / 10 ≤ jsMax (1 / 10) (jsMin 10 v) ∧ jsMax (1 / 10) (jsMin 10 v) ≤ 10 :=
  ⟨le_jsMax_left _ _, jsMax_le (by norm_num) (jsMin_le_left 10 v)⟩

theorem handleWheel_scale_mem (e : WheelEvent) (t : CanvasTransform)
    (h : 1 / 10 ≤ t.scale ∧ t.scale ≤ 10) :
    1 / 10 ≤ (handleWheel e.deltaY e.isCtrlPressed e.clientX e.clientY t).scale ∧
      (handleWheel e.deltaY e.isCtrlPressed e.clientX e.clientY t).scale ≤ 10 := by
  unfold handleWheel
  cases e.isCtrlPressed with
  | false => simpa using h
  | true => simpa using clamp_mem (t.scale * (1 - e.deltaY * (1 / 1000)))

/-- Pure algebra of the zoom-about-point update: the screen point `px`
maps to the same content coordinate before and after the step. -/
theorem zoom_step_fixed (xx px os ns : ℚ) (hos : os ≠ 0) (hns : ns ≠ 0) :
    (px - (xx + ((px - xx) - (px - xx) * ns / os))) / ns = (px - xx) / os := by
  field_simp
  ring

/-- C2: Zoom-about-point keeps the cursor's content point fixed: for every
transform with scale in `[0.1, 10]` and every ctrl-wheel event at screen
point `(px, py)`, `screenToContent px py` is unchanged by `handleWheel`
(exactly, over the rationals), including when the new scale is clamped. -/
theorem c2_zoom_about_point (t : CanvasTransform) (deltaY px py : ℚ)
    (h1 : 1 / 10 ≤ t.scale) (h2 : t.scale ≤ 10) :
    screenToContent px py (handleWheel deltaY true px py t) =
      screenToContent px py t := by
  have hos : t.scale ≠ 0 := ne_of_gt (lt_of_lt_of_le (by norm_num) h1)
  have hns :
      jsMax (1 / 10) (jsMin 10 (t.scale * (1 - deltaY * (1 / 1000)))) ≠ 0 :=
    ne_of_gt (lt_of_lt_of_le (by norm_num)
      (clamp_mem (t.scale * (1 - deltaY * (1 / 1000)))).1)
  unfold handleWheel screenToContent
  simp only [if_pos rfl]
  exact Prod.ext (zoom_step_fixed t.x px t.scale _ hos hns)
    (zoom_step_fixed t.y py t.scale _ hos hns)

/-- C2 witness: a concrete zoom step (`deltaY = -100` at `(7, 11)` from
scale 1) on which the theorem's hypotheses hold. -/
theorem c2_zoom_about_point_witness :
    (1 / 10 ≤ (CanvasTransform.mk 5 3 1).scale ∧
      (CanvasTransform.mk 5 3 1).scale ≤ 10) ∧
    screenToContent 7 11 (handleWheel (-100) true 7 11 (CanvasTransform.mk 5 3 1)) =
      screenToContent 7 11 (CanvasTransform.mk 5 3 1) :=
  ⟨⟨by norm_num, by norm_num⟩,
    c2_zoom_about_point (CanvasTransform.mk 5 3 1) (-100) 7 11
      (by norm_num) (by norm_num)⟩

/-- C5: The viewport scale stays clamped under wheel zoom: starting from any
transform with scale in `[0.1, 10]`, after each event of any finite sequence
of `handleWheel` events (ctrl held or not), the scale is still in
`[0.1, 10]`. -/
theorem c5_scale_clamped (t : CanvasTransform) (evs : List WheelEvent)
    (h : 1 / 10 ≤ t.scale ∧ t.scale ≤ 10) :
    ∀ u ∈ wheelTrace t evs, 1 / 10 ≤ u.scale ∧ u.scale ≤ 10 := by
  induction evs generalizing t with
  | nil => intro u hu; simp [wheelTrace] at hu
  | cons e es ih =>
    intro u hu
    simp only [wheelTrace, List.mem_cons] at hu
    rcases hu with rfl | hu
    · exact handleWheel_scale_mem e t h
    · exact ih _ (handleWheel_scale_mem e t h) u hu

/-- C5 witness: a two-event sequence (one ctrl-zoom, one plain pan) from the
identity transform; every state in the trace has scale in `[0.1, 10]`. -/
theorem c5_scale_clamped_witness :
    (1 / 10 ≤ (CanvasTransform.mk 0 0 1).scale ∧
      (CanvasTransform.mk 0 0 1).scale ≤ 10) ∧
    ∀ u ∈ wheelTrace (CanvasTransform.mk 0 0 1)
        [WheelEvent.mk (-100) true 3 4, WheelEvent.mk 50 false 0 0],
      1 / 10 ≤ u.scale ∧ u.scale ≤ 10 :=
  ⟨⟨by norm_num, by norm_num⟩,
    c5_scale_clamped (CanvasTransform.mk 0 0 1)
      [WheelEvent.mk (-100) true 3 4, WheelEvent.mk 50 false 0 0]
      ⟨by norm_num, by norm_num⟩⟩

/-! ## Layer store (`imageStore.ts`)

Data model.  A CanvasKit `Image` is opaque to the store logic except for
`width()`/`height()`; it is modelled as a handle carrying an identity tag
(JavaScript `===` on image objects is reference equality) and its
dimensions.  `ImageObject` mirrors `src/types/image.ts`, where `blendMode`
and `opacity` are optional fields. -/

/-- Opaque decoded-bitmap handle: identity tag plus `width()`/`height()`. -/
structure ImgHandle where
  hid : Nat
  width : ℚ
  height : ℚ
deriving DecidableEq, Repr

/-- The blend-mode names of `BLEND_MODES` in `src/types/image.ts`. -/
inductive BlendModeName where
  | Clear | Src | Dst | SrcOver | DstOver | SrcIn | DstIn | SrcOut | DstOut
  | SrcATop | DstATop | Xor | Plus | Modulate | Screen | Overlay | Darken
  | Lighten | ColorDodge | ColorBurn | HardLight | SoftLight | Difference
  | Exclusion | Multiply
deriving DecidableEq, Repr

/-- `interface ImageObject` from `src/types/image.ts` (`blendMode` and
`opacity` are optional there, hence `Option` here). -/
structure ImageObject where
  id : String
  image : ImgHandle
  name : String
  x : ℚ
  y : ℚ
  scale : ℚ
  rotation : ℚ
  blendMode : Option BlendModeName
  opacity : Option ℚ
deriving DecidableEq, Repr

/-- `interface DragState` from `imageStore.ts`. -/
structure DragState where
  isDragging : Bool
  startX : ℚ
  startY : ℚ
  offsetX : ℚ
  offsetY : ℚ
deriving DecidableEq, Repr

/-- `interface DisplacementState` from `imageStore.ts`. -/
structure DisplacementState where
  sourceId : Option String
  dispImage : Option ImgHandle
  maskImage : Option ImgHandle
deriving DecidableEq, Repr

/-- The part of a `DOMRect` the store reads (`rect.left`, `rect.top`). -/
structure Rect where
  left : ℚ
  top : ℚ
deriving DecidableEq, Repr

/-- The state of `useImageStore`.  The three optional overlap callbacks are
modelled by "registered" flags; the invocations an action performs are
returned in an explicit event list. -/
structure ImageStore where
  images : List ImageObject
  selectedImage : Option ImageObject
  dragState : DragState
  displacementState : DisplacementState
  isOverlapping : Bool
  onEnterOverlapSet : Bool
  onDragInOverlapSet : Bool
  onLeaveOverlapSet : Bool
  canvasWidth : ℚ
  canvasHeight : ℚ
deriving DecidableEq, Repr

/-- One overlap-callback invocation, with the arguments the store passes. -/
inductive Event where
  | enterOverlap (dragging target : ImageObject)
  | dragInOverlap (dragging target : ImageObject)
  | leaveOverlap (dragging : ImageObject)
deriving DecidableEq, Repr

/-- Which callback an event invoked. -/
inductive EventTag where
  | enter
  | dragIn
  | leave
deriving DecidableEq, Repr

/-- The tag of an event. -/
def Event.tag : Event → EventTag
  | .enterOverlap _ _ => .enter
  | .dragInOverlap _ _ => .dragIn
  | .leaveOverlap _ => .leave

/-- Tags of an event list, in order. -/
def eventTags (evs : List Event) : List EventTag := evs.map Event.tag

/-! Store actions. -/

/-- `addImage` (lines 156–172): appends a new layer with default transform
(`x=0, y=0, scale=1, rotation=0, opacity=1, blendMode="SrcOver"`) and makes
it the selected image.  The generated `crypto.randomUUID()` is passed in as
`newId`. -/
def addImage (newId : String) (image : ImgHandle) (name : String)
    (s : ImageStore) : ImageStore :=
  let newImage : ImageObject :=
    { id := newId, image := image, name := name, x := 0, y := 0, scale := 1,
      rotation := 0, opacity := some 1, blendMode := some BlendModeName.SrcOver }
  { s with images := s.images ++ [newImage], selectedImage := some newImage }

/-- `selectImage` (lines 174–179): `selectedImage = images.find(id) || null`. -/
def selectImage (id : String) (s : ImageStore) : ImageStore :=
  { s with selectedImage := s.images.find? (fun img => img.id == id) }

/-- `deleteImage` (lines 181–188): filters out the layer with the given id;
clears the selection when it referenced that id. -/
def deleteImage (id : String) (s : ImageStore) : ImageStore :=
  { s with
    images := s.images.filter (fun img => !(img.id == id)),
    selectedImage :=
      match s.selectedImage with
      | some sel => if sel.id == id then none else some sel
      | none => none }

/-- A `Partial<ImageObject>`: fields present in the update override. -/
structure ImageUpdate where
  id : Option String
  image : Option ImgHandle
  name : Option String
  x : Option ℚ
  y : Option ℚ
  scale : Option ℚ
  rotation : Option ℚ
  blendMode : Option BlendModeName
  opacity : Option ℚ
deriving DecidableEq, Repr

/-- The empty update (no fields present). -/
def ImageUpdate.none : ImageUpdate :=
  ⟨Option.none, Option.none, Option.none, Option.none, Option.none,
    Option.none, Option.none, Option.none, Option.none⟩

/-- The object spread `{ ...img, ...updates }` of `updateImageContent`. -/
def applyUpdate (img : ImageObject) (u : ImageUpdate) : ImageObject :=
  { id := u.id.getD img.id,
    image := u.image.getD img.image,
    name := u.name.getD img.name,
    x := u.x.getD img.x,
    y := u.y.getD img.y,
    scale := u.scale.getD img.scale,
    rotation := u.rotation.getD img.rotation,
    blendMode := match u.blendMode with | some b => some b | Option.none => img.blendMode,
    opacity := match u.opacity with | some o => some o | Option.none => img.opacity }

/-- The `images.map` loop of `updateImageContent` (lines 190–214): each layer
whose id matches is merged with the updates, and whenever a matching layer is
produced while the **current** selection still carries the updated id, the
selection is refreshed to that merged value (the source reassigns
`state.selectedImage` inside the map callback). -/
def updateImagesLoop (id : String) (u : ImageUpdate) :
    List ImageObject → Option ImageObject → List ImageObject × Option ImageObject
  | [], sel => ([], sel)
  | img :: rest, sel =>
    if img.id == id then
      let updated := applyUpdate img u
      let sel' :=
        match sel with
        | some se => if se.id == id then some updated else some se
        | Option.none => Option.none
      let r := updateImagesLoop id u rest sel'
      (updated :: r.1, r.2)
    else
      let r := updateImagesLoop id u rest sel
      (img :: r.1, r.2)

/-- `updateImageContent` (lines 190–214). -/
def updateImageContent (id : String) (u : ImageUpdate) (s : ImageStore) :
    ImageStore :=
  let r := updateImagesLoop id u s.images s.selectedImage
  { s with images := r.1, selectedImage := r.2 }

/-- `createDerivedImage` (lines 216–229): appends a layer with
`x=0, y=0, scale=1, rotation=0` and no `opacity`/`blendMode` fields; unlike
`addImage` it does not touch the selection. -/
def createDerivedImage (newId : String) (image : ImgHandle) (name : String)
    (s : ImageStore) : ImageStore :=
  { s with
    images := s.images ++
      [{ id := newId, image := image, name := name, x := 0, y := 0,
         scale := 1, rotation := 0, blendMode := Option.none,
         opacity := Option.none }] }

/-- `startDragging` (lines 254–267). -/
def startDragging (x y : ℚ) (rect : Rect) (s : ImageStore) : ImageStore :=
  match s.selectedImage with
  | some sel =>
    { s with
      dragState :=
        { isDragging := true, startX := x - rect.left, startY := y - rect.top,
          offsetX := sel.x, offsetY := sel.y } }
  | none => s

/-- `checkOverlap` (lines 433–478): the dragged layer's scaled center must
lie (inclusively) inside the target layer's scaled axis-aligned bounds. -/
def checkOverlap (draggingImage targetImage : ImageObject) : Bool :=
  let dragCenterX :=
    draggingImage.x + draggingImage.image.width * draggingImage.scale / 2
  let dragCenterY :=
    draggingImage.y + draggingImage.image.height * draggingImage.scale / 2
  let targetLeft := targetImage.x
  let targetRight := targetImage.x + targetImage.image.width * targetImage.scale
  let targetTop := targetImage.y
  let targetBottom := targetImage.y + targetImage.image.height * targetImage.scale
  decide (targetLeft ≤ dragCenterX ∧ dragCenterX ≤ targetRight ∧
    targetTop ≤ dragCenterY ∧ dragCenterY ≤ targetBottom)

/-- `checkSizeRatio` (lines 481–498): scaled areas (`width*height*scale**2`),
`draggingArea / targetArea < 0.7`.  When the target area is zero, JavaScript
division yields `NaN`/`±Infinity`; `ratio < 0.7` is then true only for a
negative numerator, which the zero-denominator branch reproduces. -/
def checkSizeRatio (draggingImage targetImage : ImageObject) : Bool :=
  let draggingArea :=
    draggingImage.image.width * draggingImage.image.height *
      (draggingImage.scale * draggingImage.scale)
  let targetArea :=
    targetImage.image.width * targetImage.image.height *
      (targetImage.scale * targetImage.scale)
  if targetArea = 0 then decide (draggingArea < 0)
  else decide (draggingArea / targetArea < 7 / 10)

/-- The target-scanning loop of `handleDrag` (lines 292–304): walk the layer
list from topmost (`images.length - 1`) down, skip the dragged layer itself,
and stop at the first target satisfying both predicate parts.  The argument
list is the store's `images` reversed. -/
def findOverlapTarget (dragging : ImageObject) :
    List ImageObject → Option ImageObject
  | [] => none
  | t :: rest =>
    if t.id == dragging.id then findOverlapTarget dragging rest
    else if checkOverlap dragging t && checkSizeRatio dragging t then some t
    else findOverlapTarget dragging rest

/-- The candidate position `handleDrag` computes for the dragged layer:
`offset + (pointer - rect.origin - start)`. -/
def candidatePos (s : ImageStore) (x y : ℚ) (rect : Rect) : ℚ × ℚ :=
  (s.dragState.offsetX + (x - rect.left - s.dragState.startX),
   s.dragState.offsetY + (y - rect.top - s.dragState.startY))

/-- `handleDrag` (lines 269–334).  Guard: no-op unless a drag is active and a
layer is selected.  It moves the selected layer to the candidate position,
scans for an overlap target, and drives the enter/drag-in/leave hysteresis:
on a predicate-true move it fires `onEnterOverlap` if `isOverlapping` was
false (else `onDragInOverlap`) and sets `isOverlapping := true`; on a
predicate-false move it fires `onLeaveOverlap` only if `isOverlapping` was
true, resetting it.  A callback only fires when registered. -/
def handleDrag (x y : ℚ) (rect : Rect) (s : ImageStore) :
    ImageStore × List Event :=
  match s.selectedImage, s.dragState.isDragging with
  | some sel, true =>
    let c := candidatePos s x y rect
    let updatedDraggingImage := { sel with x := c.1, y := c.2 }
    let images' := s.images.map (fun img =>
      if img.id == sel.id then { img with x := c.1, y := c.2 } else img)
    match findOverlapTarget updatedDraggingImage s.images.reverse with
    | some overlappingTarget =>
      let evs :=
        if !s.isOverlapping then
          (if s.onEnterOverlapSet then
            [Event.enterOverlap updatedDraggingImage overlappingTarget] else [])
        else
          (if s.onDragInOverlapSet then
            [Event.dragInOverlap updatedDraggingImage overlappingTarget] else [])
      ({ s with
          images := images',
          selectedImage := some updatedDraggingImage,
          isOverlapping := true }, evs)
    | none =>
      if s.isOverlapping then
        ({ s with
            images := images',
            selectedImage := some updatedDraggingImage,
            isOverlapping := false },
         if s.onLeaveOverlapSet then [Event.leaveOverlap updatedDraggingImage]
         else [])
      else
        ({ s with
            images := images',
            selectedImage := some updatedDraggingImage }, [])
  | _, _ => (s, [])

/-- `stopDragging` (lines 336–340): clears only `dragState.isDragging`; it
invokes no callback (empty event list) and touches no other field. -/
def stopDragging (s : ImageStore) : ImageStore × List Event :=
  ({ s with dragState := { s.dragState with isDragging := false } }, [])

/-- `clearSelection` (lines 342–346). -/
def clearSelection (s : ImageStore) : ImageStore :=
  { s with selectedImage := none }

/-- `clearAllImages` (lines 562–576): empties the layer list, clears the
selection, resets `isOverlapping`, and resets `displacementState` when a
displacement image was set; it invokes no callback. -/
def clearAllImages (s : ImageStore) : ImageStore × List Event :=
  ({ s with
      images := [],
      selectedImage := none,
      isOverlapping := false,
      displacementState :=
        if s.displacementState.dispImage.isSome then
          { sourceId := none, dispImage := none, maskImage := none }
        else s.displacementState }, [])

/-- The hit test of `findTopImageAtPoint` (lines 588–593), with the source's
`img.scale || 1` fallback (a zero scale reads as 1).  The source also skips
layers whose `image` field is absent (possible only for states rehydrated
outside the `ImageObject` type); in the model `image` is always present, so
that guard never fires. -/
def hitBoxCode (x y : ℚ) (img : ImageObject) : Bool :=
  let width := img.image.width * (if img.scale == 0 then 1 else img.scale)
  let height := img.image.height * (if img.scale == 0 then 1 else img.scale)
  decide (img.x ≤ x ∧ x ≤ img.x + width ∧ img.y ≤ y ∧ y ≤ img.y + height)

/-- The back-to-front loop of `findTopImageAtPoint`; the argument is the
store's `images` reversed. -/
def findTopAux (x y : ℚ) : List ImageObject → Option ImageObject
  | [] => none
  | img :: rest =>
    if hitBoxCode x y img then some img else findTopAux x y rest

/-- `findTopImageAtPoint` (lines 578–598). -/
def findTopImageAtPoint (x y : ℚ) (s : ImageStore) : Option ImageObject :=
  findTopAux x y s.images.reverse

/-- C8's box, taken from the spec's words: the axis-aligned box
`[x, x + width*scale] × [y, y + height*scale]`, membership inclusive. -/
def containsPointSpec (x y : ℚ) (img : ImageObject) : Bool :=
  decide (img.x ≤ x ∧ x ≤ img.x + img.image.width * img.scale ∧
    img.y ≤ y ∧ y ≤ img.y + img.image.height * img.scale)

/-- Name given to the derived layer produced by `applyDisplacement`. -/
def derivedName : String := "置换效果"

/-- Outcomes of the external rendering calls `applyDisplacement` makes:
whether `CanvasKit.MakeSurface` succeeds, the snapshot image it would
produce, and the id generated for the derived layer. -/
structure DispOracle where
  makeSurfaceOk : Bool
  snapshot : ImgHandle
  newId : String
deriving DecidableEq, Repr

/-- Rendering-resource effects `applyDisplacement` can perform. -/
inductive DispEffect where
  | madeSurface (width height : ℚ)
  | renderedDisplacement
  | deletedSurface
deriving DecidableEq, Repr

/-- `applyDisplacement` of the store (lines 367–409).  Guards, in source
order: missing/falsy `sourceId` or missing `dispImage` (the empty string is
falsy in JavaScript), no layer with id `sourceId`, no layer holding the
displacement image — each returns with no state change and no rendering
effect.  Otherwise a temp surface is made; on success the snapshot becomes a
derived layer, the temp surface is deleted, the displacement-map layer is
removed and `displacementState` is reset. -/
def applyDisplacement (o : DispOracle) (s : ImageStore) :
    ImageStore × List DispEffect :=
  match s.displacementState.sourceId, s.displacementState.dispImage with
  | some sourceId, some dispImage =>
    if sourceId == "" then (s, [])
    else
      match s.images.find? (fun img => img.id == sourceId) with
      | none => (s, [])
      | some sourceImage =>
        match s.images.find? (fun img => img.image == dispImage) with
        | none => (s, [])
        | some dispLayer =>
          if o.makeSurfaceOk then
            let s1 := createDerivedImage o.newId o.snapshot derivedName s
            let s2 := deleteImage dispLayer.id s1
            ({ s2 with
                displacementState :=
                  { sourceId := none, dispImage := none, maskImage := none } },
             [DispEffect.madeSurface sourceImage.image.width
                sourceImage.image.height,
              DispEffect.renderedDisplacement, DispEffect.deletedSurface])
          else
            (s, [DispEffect.madeSurface sourceImage.image.width
                sourceImage.image.height])
  | _, _ => (s, [])

/-! ## Drag runs and the overlap hysteresis automaton -/

/-- The overlap predicate `handleDrag` evaluates on one move event: some
target layer (scanned topmost-first, skipping the dragged layer) passes both
`checkOverlap` and `checkSizeRatio` against the candidate position. -/
def dragPred (s : ImageStore) (x y : ℚ) (rect : Rect) : Bool :=
  match s.selectedImage with
  | some sel =>
    let c := candidatePos s x y rect
    (findOverlapTarget { sel with x := c.1, y := c.2 } s.images.reverse).isSome
  | none => false

/-- Run a sequence of `handleDrag` move events, collecting all emitted
callback invocations in order. -/
def runDrag (rect : Rect) : ImageStore → List (ℚ × ℚ) → ImageStore × List Event
  | s, [] => (s, [])
  | s, mv :: ms =>
    let r := handleDrag mv.1 mv.2 rect s
    let rest := runDrag rect r.1 ms
    (rest.1, r.2 ++ rest.2)

/-- The value of the overlap predicate at each move of a run, in order. -/
def predTrace (rect : Rect) : ImageStore → List (ℚ × ℚ) → List Bool
  | _, [] => []
  | s, mv :: ms =>
    dragPred s mv.1 mv.2 rect :: predTrace rect (handleDrag mv.1 mv.2 rect s).1 ms

/-- The value of `isOverlapping` after each move of a run, in order. -/
def overlapTrace (rect : Rect) : ImageStore → List (ℚ × ℚ) → List Bool
  | _, [] => []
  | s, mv :: ms =>
    let s' := (handleDrag mv.1 mv.2 rect s).1
    s'.isOverlapping :: overlapTrace rect s' ms

/-- One step of the reference hysteresis automaton (spec §4.3): `b` is the
stored `isOverlapping`, `p` the predicate on this move. -/
def stepTags (b p : Bool) : List EventTag :=
  if p && !b then [EventTag.enter]
  else if p && b then [EventTag.dragIn]
  else if !p && b then [EventTag.leave]
  else []

/-- The callback tags the reference automaton emits along a predicate
trace. -/
def hysteresisTags : Bool → List Bool → List EventTag
  | _, [] => []
  | b, p :: ps => stepTags b p ++ hysteresisTags p ps

/-- Characterization of one `handleDrag` move under an active drag: drag
state and handler registrations are untouched, the selected layer and its
entry in `images` move to the candidate position, `isOverlapping` becomes
the predicate value, and (when all three handlers are registered) the
emitted events are exactly those of the reference automaton step. -/
theorem handleDrag_step (x y : ℚ) (rect : Rect) (s : ImageStore)
    (sel : ImageObject) (hsel : s.selectedImage = some sel)
    (hdrag : s.dragState.isDragging = true) :
    (handleDrag x y rect s).1.dragState = s.dragState ∧
    (handleDrag x y rect s).1.selectedImage =
      some { sel with
              x := (candidatePos s x y rect).1,
              y := (candidatePos s x y rect).2 } ∧
    (handleDrag x y rect s).1.images =
      s.images.map (fun img =>
        if img.id == sel.id then
          { img with
              x := (candidatePos s x y rect).1,
              y := (candidatePos s x y rect).2 }
        else img) ∧
    (handleDrag x y rect s).1.onEnterOverlapSet = s.onEnterOverlapSet ∧
    (handleDrag x y rect s).1.onDragInOverlapSet = s.onDragInOverlapSet ∧
    (handleDrag x y rect s).1.onLeaveOverlapSet = s.onLeaveOverlapSet ∧
    (handleDrag x y rect s).1.isOverlapping = dragPred s x y rect ∧
    (s.onEnterOverlapSet = true → s.onDragInOverlapSet = true →
      s.onLeaveOverlapSet = true →
      eventTags (handleDrag x y rect s).2 =
        stepTags s.isOverlapping (dragPred s x y rect)) := by
  obtain ⟨imgs, selF, ds, disp, over, e1, e2, e3, cw, ch⟩ := s
  obtain ⟨idrag, sx, sy, ox, oy⟩ := ds
  simp only at hsel hdrag
  subst hsel hdrag
  simp only [handleDrag, dragPred]
  cases hfo : findOverlapTarget
      { sel with
          x := (candidatePos
            ⟨imgs, some sel, ⟨true, sx, sy, ox, oy⟩, disp, over, e1, e2, e3, cw, ch⟩
            x y rect).1,
          y := (candidatePos
            ⟨imgs, some sel, ⟨true, sx, sy, ox, oy⟩, disp, over, e1, e2, e3, cw, ch⟩
            x y rect).2 } imgs.reverse with
  | some tgt =>
    cases over <;>
      simp [hfo, stepTags, eventTags, Event.tag] <;>
      (intros; simp_all [eventTags, Event.tag])
  | none =>
    cases over <;>
      simp [hfo, stepTags, eventTags, Event.tag] <;>
      (intros; simp_all [eventTags, Event.tag])

/-- Along any run of move events under an active drag with all three
handlers registered, the emitted callback tags are exactly those of the
reference hysteresis automaton on the predicate trace, and `isOverlapping`
after each move equals the predicate at that move. -/
theorem runDrag_spec (rect : Rect) (ms : List (ℚ × ℚ)) :
    ∀ (s : ImageStore) (sel : ImageObject),
      s.selectedImage = some sel → s.dragState.isDragging = true →
      s.onEnterOverlapSet = true → s.onDragInOverlapSet = true →
      s.onLeaveOverlapSet = true →
      eventTags (runDrag rect s ms).2 =
          hysteresisTags s.isOverlapping (predTrace rect s ms) ∧
        overlapTrace rect s ms = predTrace rect s ms := by
  induction ms with
  | nil =>
    intro s sel hsel hdrag hE hD hL
    exact ⟨rfl, rfl⟩
  | cons mv ms ih =>
    intro s sel hsel hdrag hE hD hL
    obtain ⟨hds, hsel2, _, hE2, hD2, hL2, hover, htags⟩ :=
      handleDrag_step mv.1 mv.2 rect s sel hsel hdrag
    have hdrag2 : (handleDrag mv.1 mv.2 rect s).1.dragState.isDragging = true := by
      rw [hds]; exact hdrag
    obtain ⟨ihTags, ihTrace⟩ :=
      ih (handleDrag mv.1 mv.2 rect s).1 _ hsel2 hdrag2
        (hE2.trans hE) (hD2.trans hD) (hL2.trans hL)
    constructor
    · show eventTags ((handleDrag mv.1 mv.2 rect s).2 ++
          (runDrag rect (handleDrag mv.1 mv.2 rect s).1 ms).2) = _
      rw [eventTags, List.map_append, ← eventTags, ← eventTags,
        htags hE hD hL, ihTags, hover]
      rfl
    · show (handleDrag mv.1 mv.2 rect s).1.isOverlapping ::
          overlapTrace rect (handleDrag mv.1 mv.2 rect s).1 ms = _
      rw [hover, ihTrace]
      rfl

/-- The reference automaton, while in the overlapping state, emits one
`dragIn` per predicate-true move. -/
theorem hysteresisTags_sustain (ps : List Bool) :
    ∀ k : ℕ, hysteresisTags true (List.replicate k true ++ ps) =
      List.replicate k EventTag.dragIn ++ hysteresisTags true ps := by
  intro k
  induction k with
  | zero => rfl
  | succ k ihk =>
    rw [List.replicate_succ, List.cons_append, List.replicate_succ]
    show stepTags true true ++ _ = _
    rw [ihk]
    rfl

/-- The reference automaton, while out of overlap, stays silent on
predicate-false moves. -/
theorem hysteresisTags_quiet : ∀ m : ℕ,
    hysteresisTags false (List.replicate m false) = [] := by
  intro m
  induction m with
  | zero => rfl
  | succ m ihm =>
    rw [List.replicate_succ]
    show stepTags false false ++ _ = _
    rw [ihm]
    rfl

/-- C1: Overlap hysteresis during a drag.  Starting with
`isOverlapping = false` under an active drag with all three handlers
registered, a run whose overlap predicate is true for the first `k + 1`
moves and false for the remaining `m + 1` moves fires exactly one
`onEnterOverlap` (on the first move), `onDragInOverlap` on each of the `k`
subsequent still-true moves, and exactly one `onLeaveOverlap` (on the first
predicate-false move) with nothing afterwards; `isOverlapping` equals the
predicate after every move. -/
theorem c1_overlap_hysteresis (rect : Rect) (s : ImageStore)
    (sel : ImageObject) (ms : List (ℚ × ℚ)) (k m : ℕ)
    (hsel : s.selectedImage = some sel)
    (hdrag : s.dragState.isDragging = true)
    (hE : s.onEnterOverlapSet = true) (hD : s.onDragInOverlapSet = true)
    (hL : s.onLeaveOverlapSet = true) (h0 : s.isOverlapping = false)
    (hp : predTrace rect s ms =
      List.replicate (k + 1) true ++ List.replicate (m + 1) false) :
    eventTags (runDrag rect s ms).2 =
      EventTag.enter ::
        (List.replicate k EventTag.dragIn ++ [EventTag.leave]) ∧
    overlapTrace rect s ms = predTrace rect s ms := by
  obtain ⟨h1, h2⟩ := runDrag_spec rect ms s sel hsel hdrag hE hD hL
  refine ⟨?_, h2⟩
  rw [h1, h0, hp, List.replicate_succ, List.cons_append]
  show stepTags false true ++
      hysteresisTags true (List.replicate k true ++ List.replicate (m + 1) false) =
    _
  rw [hysteresisTags_sustain, List.replicate_succ]
  show _ ++ (_ ++ (stepTags true false ++
      hysteresisTags false (List.replicate m false))) = _
  rw [hysteresisTags_quiet]
  simp [stepTags]

/-! Shared concrete scenario: layer A (100×100) and layer B (200×200), both
at the origin with scale 1; A is selected with an active drag anchored at
the origin, all overlap handlers registered. -/

/-- A's decoded image: 100×100. -/
def wImgA : ImgHandle := ⟨0, 100, 100⟩

/-- B's decoded image: 200×200. -/
def wImgB : ImgHandle := ⟨1, 200, 200⟩

/-- The id of layer A. -/
def wIdA : String := "layer-a"

/-- The id of layer B. -/
def wIdB : String := "layer-b"

/-- Layer A: 100×100 at (0,0), scale 1. -/
def wA : ImageObject :=
  ⟨wIdA, wImgA, wIdA, 0, 0, 1, 0, some BlendModeName.SrcOver, some 1⟩

/-- Layer B: 200×200 at (0,0), scale 1. -/
def wB : ImageObject :=
  ⟨wIdB, wImgB, wIdB, 0, 0, 1, 0, some BlendModeName.SrcOver, some 1⟩

/-- An active drag anchored at the origin with zero offsets. -/
def wDragActive : DragState := ⟨true, 0, 0, 0, 0⟩

/-- Empty displacement state. -/
def wDispNone : DisplacementState := ⟨none, none, none⟩

/-- The canvas rectangle origin. -/
def wRect : Rect := ⟨0, 0⟩

/-- Store with layers [A, B], A selected and dragging, not overlapping,
all handlers registered. -/
def storeAB : ImageStore :=
  ⟨[wA, wB], some wA, wDragActive, wDispNone, false, true, true, true, 800, 600⟩

/-- Moves for the C1 witness: first into B (candidate (50,50), center
(100,100) inside B, ratio 1/4 < 0.7), then far outside B. -/
def c1Moves : List (ℚ × ℚ) := [(50, 50), (400, 400)]

/-- C1 witness: on the concrete two-move run the predicate trace is
`[true, false]` and the run fires exactly `[enter, leave]`. -/
theorem c1_overlap_hysteresis_witness :
    storeAB.selectedImage = some wA ∧
    storeAB.dragState.isDragging = true ∧
    storeAB.onEnterOverlapSet = true ∧
    storeAB.onDragInOverlapSet = true ∧
    storeAB.onLeaveOverlapSet = true ∧
    storeAB.isOverlapping = false ∧
    predTrace wRect storeAB c1Moves =
      List.replicate 1 true ++ List.replicate 1 false ∧
    (eventTags (runDrag wRect storeAB c1Moves).2 =
        EventTag.enter ::
          (List.replicate 0 EventTag.dragIn ++ [EventTag.leave]) ∧
      overlapTrace wRect storeAB c1Moves = predTrace wRect storeAB c1Moves) :=
  ⟨rfl, rfl, rfl, rfl, rfl, rfl, by decide,
    c1_overlap_hysteresis wRect storeAB wA c1Moves 0 0 rfl rfl rfl rfl rfl rfl
      (by decide)⟩

/-- Store like `storeAB` but currently in the overlapping state. -/
def storeABover : ImageStore :=
  ⟨[wA, wB], some wA, wDragActive, wDispNone, true, true, true, true, 800, 600⟩

/-- C3 counterexample: a state with `isOverlapping = true` and an active
drag for which `stopDragging` does **not** reset the overlap state to NONE:
`isOverlapping` is still true afterwards (the source's `stopDragging` only
clears `dragState.isDragging`). -/
theorem c3_counterexample :
    storeABover.isOverlapping = true ∧
    storeABover.dragState.isDragging = true ∧
    ¬ ((stopDragging storeABover).1.isOverlapping = false) := by
  decide

/-- C3 (amended): `stopDragging` only clears `dragState.isDragging`, leaving
`isOverlapping` (and every other field) unchanged and invoking no callback;
`clearAllImages` does reset the overlap state to NONE (`isOverlapping =
false`), also invoking no callback — in particular neither fires
`onLeaveOverlap`. -/
theorem c3_stop_and_clear (s : ImageStore) :
    (stopDragging s).1 =
      { s with dragState := { s.dragState with isDragging := false } } ∧
    (stopDragging s).1.isOverlapping = s.isOverlapping ∧
    (stopDragging s).2 = [] ∧
    (clearAllImages s).1.isOverlapping = false ∧
    (clearAllImages s).2 = [] :=
  ⟨rfl, rfl, rfl, rfl, rfl⟩

/-- C4: The size-eligibility scenario.  With A (100×100, scale 1) dragged
so its center is at (100,100) and B (200×200, scale 1) at the origin, the
overlap predicate is true — the scaled-area ratio 10000/40000 = 0.25 is
strictly below 0.7 and A's center lies inclusively in B's scaled bounds —
and a single drag move to that position from a non-overlapping state fires
`onEnterOverlap` exactly once. -/
theorem c4_size_eligibility_scenario :
    checkOverlap { wA with x := 50, y := 50 } wB = true ∧
    checkSizeRatio { wA with x := 50, y := 50 } wB = true ∧
    (handleDrag 50 50 wRect storeAB).2 =
      [Event.enterOverlap { wA with x := 50, y := 50 } wB] ∧
    (handleDrag 50 50 wRect storeAB).1.isOverlapping = true := by
  decide

/-! ## Selection invariant (C6, C7) -/

/-- No dangling selection: the selected image, when present, is an element
of the layer collection (same id and attribute values). -/
def selectionInvariant (s : ImageStore) : Prop :=
  ∀ sel, s.selectedImage = some sel → sel ∈ s.images

/-- When no element matches the id, the update loop returns the list and
selection unchanged. -/
theorem updateImagesLoop_no_match (id : String) (u : ImageUpdate) :
    ∀ (l : List ImageObject) (sel : Option ImageObject),
      (∀ img ∈ l, (img.id == id) = false) →
      updateImagesLoop id u l sel = (l, sel) := by
  intro l
  induction l with
  | nil => intro sel _; rfl
  | cons img rest ih =>
    intro sel h
    have h1 : (img.id == id) = false := h img (List.mem_cons_self img rest)
    have h2 : ∀ t ∈ rest, (t.id == id) = false := fun t ht =>
      h t (List.mem_cons_of_mem _ ht)
    simp [updateImagesLoop, h1, ih sel h2]

/-- The update loop either leaves the selection value unchanged or puts it
somewhere in the output list. -/
theorem updateImagesLoop_sel_in_output (id : String) (u : ImageUpdate) :
    ∀ (l : List ImageObject) (sel0 : Option ImageObject),
      (updateImagesLoop id u l sel0).2 = sel0 ∨
      ∃ t, (updateImagesLoop id u l sel0).2 = some t ∧
        t ∈ (updateImagesLoop id u l sel0).1 := by
  intro l
  induction l with
  | nil => intro sel0; exact Or.inl rfl
  | cons img rest ih =>
    intro sel0
    by_cases hid : (img.id == id) = true
    · cases sel0 with
      | none =>
        rcases ih none with h | ⟨t, ht1, ht2⟩
        · left
          simp [updateImagesLoop, hid, h]
        · right
          exact ⟨t, by simp [updateImagesLoop, hid, ht1],
            by simp [updateImagesLoop, hid]; exact Or.inr ht2⟩
      | some se =>
        by_cases hs : (se.id == id) = true
        · rcases ih (some (applyUpdate img u)) with h | ⟨t, ht1, ht2⟩
          · right
            refine ⟨applyUpdate img u, ?_, ?_⟩
            · simp [updateImagesLoop, hid, hs, h]
            · simp [updateImagesLoop, hid, hs]
          · right
            refine ⟨t, ?_, ?_⟩
            · simp [updateImagesLoop, hid, hs, ht1]
            · simp [updateImagesLoop, hid, hs]
              exact Or.inr ht2
        · have hs' : (se.id == id) = false := by simpa using hs
          rcases ih (some se) with h | ⟨t, ht1, ht2⟩
          · left
            simp [updateImagesLoop, hid, hs', h]
          · right
            exact ⟨t, by simp [updateImagesLoop, hid, hs', ht1],
              by simp [updateImagesLoop, hid, hs']; exact Or.inr ht2⟩
    · have hid' : (img.id == id) = false := by simpa using hid
      rcases ih sel0 with h | ⟨t, ht1, ht2⟩
      · left
        simp [updateImagesLoop, hid', h]
      · right
        exact ⟨t, by simp [updateImagesLoop, hid', ht1],
          by simp [updateImagesLoop, hid']; exact Or.inr ht2⟩

/-- If the selection value is a member of the input list, the update loop
returns a selection that is a member of the output list. -/
theorem updateImagesLoop_mem_in_output (id : String) (u : ImageUpdate) :
    ∀ (l : List ImageObject) (se : ImageObject), se ∈ l →
      ∃ t, (updateImagesLoop id u l (some se)).2 = some t ∧
        t ∈ (updateImagesLoop id u l (some se)).1 := by
  intro l
  induction l with
  | nil => intro se h; exact absurd h (List.not_mem_nil se)
  | cons img rest ih =>
    intro se hmem
    by_cases hid : (img.id == id) = true
    · by_cases hs : (se.id == id) = true
      · rcases updateImagesLoop_sel_in_output id u rest
            (some (applyUpdate img u)) with h | ⟨t, ht1, ht2⟩
        · exact ⟨applyUpdate img u, by simp [updateImagesLoop, hid, hs, h],
            by simp [updateImagesLoop, hid, hs]⟩
        · exact ⟨t, by simp [updateImagesLoop, hid, hs, ht1],
            by simp [updateImagesLoop, hid, hs]; exact Or.inr ht2⟩
      · have hs' : (se.id == id) = false := by simpa using hs
        have hne : se ≠ img := by
          intro he
          rw [he] at hs'
          rw [hid] at hs'
          simp at hs'
        have hrest : se ∈ rest := by
          rcases List.mem_cons.mp hmem with h | h
          · exact absurd h hne
          · exact h
        rcases ih se hrest with ⟨t, ht1, ht2⟩
        exact ⟨t, by simp [updateImagesLoop, hid, hs', ht1],
          by simp [updateImagesLoop, hid, hs']; exact Or.inr ht2⟩
    · have hid' : (img.id == id) = false := by simpa using hid
      rcases List.mem_cons.mp hmem with h | hrest
      · subst h
        rcases updateImagesLoop_sel_in_output id u rest (some se) with
          h2 | ⟨t, ht1, ht2⟩
        · exact ⟨se, by simp [updateImagesLoop, hid', h2],
            by simp [updateImagesLoop, hid']⟩
        · exact ⟨t, by simp [updateImagesLoop, hid', ht1],
            by simp [updateImagesLoop, hid']; exact Or.inr ht2⟩
      · rcases ih se hrest with ⟨t, ht1, ht2⟩
        exact ⟨t, by simp [updateImagesLoop, hid', ht1],
          by simp [updateImagesLoop, hid']; exact Or.inr ht2⟩

/-- Once the running selection holds the merged value, further matching
elements (all equal to the original selected layer) keep it there. -/
theorem updateImagesLoop_refresh_keep (id : String) (u : ImageUpdate)
    (sel : ImageObject) :
    ∀ l : List ImageObject, (∀ t ∈ l, (t.id == id) = true → t = sel) →
      (updateImagesLoop id u l (some (applyUpdate sel u))).2 =
        some (applyUpdate sel u) := by
  intro l
  induction l with
  | nil => intro _; rfl
  | cons img rest ih =>
    intro h
    have hrest : ∀ t ∈ rest, (t.id == id) = true → t = sel := fun t ht =>
      h t (List.mem_cons_of_mem _ ht)
    by_cases hi : (img.id == id) = true
    · have himg : img = sel := h img (List.mem_cons_self _ _) hi
      subst himg
      by_cases hu : ((applyUpdate img u).id == id) = true
      · simp [updateImagesLoop, hi, hu, ih hrest]
      · have hu' : ((applyUpdate img u).id == id) = false := by simpa using hu
        simp [updateImagesLoop, hi, hu', ih hrest]
    · have hi' : (img.id == id) = false := by simpa using hi
      simp [updateImagesLoop, hi', ih hrest]

/-- When the selected layer matches the id, occurs in the list, and no
other element carries that id, the update loop refreshes the selection to
the merged value. -/
theorem updateImagesLoop_refresh (id : String) (u : ImageUpdate)
    (sel : ImageObject) (hid : (sel.id == id) = true) :
    ∀ l : List ImageObject, sel ∈ l →
      (∀ t ∈ l, (t.id == id) = true → t = sel) →
      (updateImagesLoop id u l (some sel)).2 = some (applyUpdate sel u) := by
  intro l
  induction l with
  | nil => intro h _; exact absurd h (List.not_mem_nil sel)
  | cons img rest ih =>
    intro hmem h
    have hrest : ∀ t ∈ rest, (t.id == id) = true → t = sel := fun t ht =>
      h t (List.mem_cons_of_mem _ ht)
    by_cases hi : (img.id == id) = true
    · have himg : img = sel := h img (List.mem_cons_self _ _) hi
      subst himg
      simp [updateImagesLoop, hi, hid, updateImagesLoop_refresh_keep id u img rest hrest]
    · have hi' : (img.id == id) = false := by simpa using hi
      have hne : sel ≠ img := by
        intro he
        rw [← he] at hi'
        rw [hid] at hi'
        simp at hi'
      have hmem' : sel ∈ rest := by
        rcases List.mem_cons.mp hmem with h2 | h2
        · exact absurd h2 hne
        · exact h2
      simp [updateImagesLoop, hi', ih hmem' hrest]

theorem addImage_inv (newId : String) (img : ImgHandle) (nm : String)
    (s : ImageStore) : selectionInvariant (addImage newId img nm s) := by
  intro sel h
  simp only [addImage, Option.some.injEq] at h
  simp [addImage, ← h]

theorem selectImage_inv (id : String) (s : ImageStore) :
    selectionInvariant (selectImage id s) := by
  intro sel h
  exact List.mem_of_find?_eq_some h

theorem deleteImage_inv (id : String) (s : ImageStore)
    (hinv : selectionInvariant s) : selectionInvariant (deleteImage id s) := by
  intro sel h
  have h' : (match s.selectedImage with
      | some se => if se.id == id then none else some se
      | none => none) = some sel := h
  cases hs : s.selectedImage with
  | none => rw [hs] at h'; exact absurd h' (by simp)
  | some se =>
    rw [hs] at h'
    by_cases hi : (se.id == id) = true
    · simp [hi] at h'
    · have hi' : (se.id == id) = false := by simpa using hi
      simp only [hi', Bool.false_eq_true, if_false, Option.some.injEq] at h'
      obtain rfl : se = sel := h'
      show se ∈ s.images.filter (fun img => !(img.id == id))
      exact List.mem_filter.mpr ⟨hinv se hs, by simp [hi']⟩

theorem updateImageContent_inv (id : String) (u : ImageUpdate) (s : ImageStore)
    (hinv : selectionInvariant s) :
    selectionInvariant (updateImageContent id u s) := by
  intro sel h
  have h' : (updateImagesLoop id u s.images s.selectedImage).2 = some sel := h
  show sel ∈ (updateImagesLoop id u s.images s.selectedImage).1
  cases hs : s.selectedImage with
  | none =>
    rw [hs] at h'
    rcases updateImagesLoop_sel_in_output id u s.images none with h2 | ⟨t, ht1, ht2⟩
    · rw [h2] at h'; exact absurd h' (by simp)
    · rw [ht1] at h'
      obtain rfl : t = sel := by simpa using h'
      exact ht2
  | some se =>
    rw [hs] at h'
    rcases updateImagesLoop_mem_in_output id u s.images se (hinv se hs) with
      ⟨t, ht1, ht2⟩
    rw [ht1] at h'
    obtain rfl : t = sel := by simpa using h'
    exact ht2

theorem handleDrag_noop_eq (x y : ℚ) (rect : Rect) (s : ImageStore)
    (h : s.selectedImage = none ∨ s.dragState.isDragging = false) :
    handleDrag x y rect s = (s, []) := by
  rcases h with h | h
  · unfold handleDrag
    rw [h]
  · unfold handleDrag
    rw [h]
    cases s.selectedImage <;> rfl

theorem handleDrag_inv (x y : ℚ) (rect : Rect) (s : ImageStore)
    (hinv : selectionInvariant s) :
    selectionInvariant (handleDrag x y rect s).1 := by
  cases hsel : s.selectedImage with
  | none =>
    rw [handleDrag_noop_eq x y rect s (Or.inl hsel)]
    exact hinv
  | some se =>
    cases hd : s.dragState.isDragging with
    | false =>
      rw [handleDrag_noop_eq x y rect s (Or.inr hd)]
      exact hinv
    | true =>
      obtain ⟨_, hsel2, himgs, _⟩ := handleDrag_step x y rect s se hsel hd
      intro sel h
      rw [hsel2] at h
      obtain rfl : _ = sel := by simpa using h
      rw [himgs]
      have := List.mem_map_of_mem (fun img =>
        if img.id == se.id then
          { img with
              x := (candidatePos s x y rect).1,
              y := (candidatePos s x y rect).2 }
        else img) (hinv se hsel)
      simpa using this

theorem clearSelection_inv (s : ImageStore) :
    selectionInvariant (clearSelection s) := by
  intro sel h
  exact absurd h (by simp [clearSelection])

theorem clearAllImages_inv (s : ImageStore) :
    selectionInvariant (clearAllImages s).1 := by
  intro sel h
  exact absurd h (by simp [clearAllImages])

/-- C6: No dangling selection.  Starting from any state satisfying the
invariant, every listed store operation preserves it; moreover deleting the
selected layer's id clears the selection, and `updateImageContent` on the
selected layer (whose id no other layer shares) refreshes the selection to
the merged value. -/
theorem c6_no_dangling_selection (s : ImageStore)
    (hinv : selectionInvariant s) (newId id nm : String) (img : ImgHandle)
    (u : ImageUpdate) (x y : ℚ) (rect : Rect) :
    selectionInvariant (addImage newId img nm s) ∧
    selectionInvariant (selectImage id s) ∧
    selectionInvariant (deleteImage id s) ∧
    selectionInvariant (updateImageContent id u s) ∧
    selectionInvariant (handleDrag x y rect s).1 ∧
    selectionInvariant (clearSelection s) ∧
    selectionInvariant (clearAllImages s).1 ∧
    (∀ sel, s.selectedImage = some sel → sel.id = id →
      (deleteImage id s).selectedImage = none) ∧
    (∀ sel, s.selectedImage = some sel → sel.id = id →
      (∀ t ∈ s.images, t.id = id → t = sel) →
      (updateImageContent id u s).selectedImage = some (applyUpdate sel u)) := by
  refine ⟨addImage_inv newId img nm s, selectImage_inv id s,
    deleteImage_inv id s hinv, updateImageContent_inv id u s hinv,
    handleDrag_inv x y rect s hinv, clearSelection_inv s,
    clearAllImages_inv s, ?_, ?_⟩
  · intro sel hsel hid
    show (match s.selectedImage with
      | some se => if se.id == id then none else some se
      | none => none) = none
    rw [hsel]
    simp [hid]
  · intro sel hsel hid huniq
    have hid' : (sel.id == id) = true := by simp [hid]
    have huniq' : ∀ t ∈ s.images, (t.id == id) = true → t = sel := by
      intro t ht hbt
      exact huniq t ht (by simpa using hbt)
    show (updateImagesLoop id u s.images s.selectedImage).2 =
      some (applyUpdate sel u)
    rw [hsel]
    exact updateImagesLoop_refresh id u sel hid' s.images (hinv sel hsel) huniq'

/-- C6 witness: the invariant holds for the concrete store `storeAB` and is
preserved by all operations there. -/
theorem c6_no_dangling_selection_witness :
    selectionInvariant storeAB ∧
    (selectionInvariant (addImage wIdB wImgA wIdB storeAB) ∧
      selectionInvariant (selectImage wIdA storeAB) ∧
      selectionInvariant (deleteImage wIdA storeAB) ∧
      selectionInvariant (updateImageContent wIdA ImageUpdate.none storeAB) ∧
      selectionInvariant (handleDrag 1 2 wRect storeAB).1 ∧
      selectionInvariant (clearSelection storeAB) ∧
      selectionInvariant (clearAllImages storeAB).1 ∧
      (∀ sel, storeAB.selectedImage = some sel → sel.id = wIdA →
        (deleteImage wIdA storeAB).selectedImage = none) ∧
      (∀ sel, storeAB.selectedImage = some sel → sel.id = wIdA →
        (∀ t ∈ storeAB.images, t.id = wIdA → t = sel) →
        (updateImageContent wIdA ImageUpdate.none storeAB).selectedImage =
          some (applyUpdate sel ImageUpdate.none))) := by
  have hinv : selectionInvariant storeAB := by
    intro sel h
    obtain rfl : wA = sel := by simpa [storeAB] using h
    simp [storeAB]
  exact ⟨hinv, c6_no_dangling_selection storeAB hinv wIdB wIdA wIdB wImgA
    ImageUpdate.none 1 2 wRect⟩

/-! ## C7: operations on a missing id -/

/-- An id carried by no layer of `storeAB`. -/
def missId : String := "no-such-id"

/-- C7 counterexample: `selectImage` on an id not carried by any layer is
**not** a no-op — it clears a non-null selection (`selectedImage =
images.find(...) || null`), so the store state changes. -/
theorem c7_counterexample :
    (∀ img ∈ storeAB.images, img.id ≠ missId) ∧
    ¬ (selectImage missId storeAB = storeAB) := by
  decide

/-- C7 (amended): on an id not carried by any layer (in a state satisfying
the selection invariant), `deleteImage` and `updateImageContent` leave the
entire store state unchanged, and `selectImage` leaves every field unchanged
except that it sets `selectedImage` to `none` (clearing any selection); none
of the three throws (all are total functions). -/
theorem c7_missing_id (s : ImageStore) (id : String) (u : ImageUpdate)
    (hinv : selectionInvariant s)
    (hmiss : ∀ img ∈ s.images, img.id ≠ id) :
    deleteImage id s = s ∧
    updateImageContent id u s = s ∧
    selectImage id s = { s with selectedImage := none } := by
  have hmiss' : ∀ img ∈ s.images, (img.id == id) = false := fun img h => by
    simpa using hmiss img h
  refine ⟨?_, ?_, ?_⟩
  · have hfil : s.images.filter (fun img => !(img.id == id)) = s.images :=
      List.filter_eq_self.mpr (fun a ha => by simp [hmiss' a ha])
    have hsel : (match s.selectedImage with
        | some se => if se.id == id then none else some se
        | none => none) = s.selectedImage := by
      cases hs : s.selectedImage with
      | none => rfl
      | some se => simp [hmiss' se (hinv se hs)]
    show { s with
        images := s.images.filter (fun img => !(img.id == id)),
        selectedImage :=
          match s.selectedImage with
          | some se => if se.id == id then none else some se
          | none => none } = s
    rw [hfil, hsel]
  · show { s with
        images := (updateImagesLoop id u s.images s.selectedImage).1,
        selectedImage := (updateImagesLoop id u s.images s.selectedImage).2 } = s
    rw [updateImagesLoop_no_match id u s.images s.selectedImage hmiss']
  · show { s with selectedImage := s.images.find? (fun img => img.id == id) } =
      { s with selectedImage := none }
    rw [List.find?_eq_none.mpr (fun x hx => by simp [hmiss' x hx])]

/-- C7 witness: the amended statement at the concrete store `storeAB` and
the missing id. -/
theorem c7_missing_id_witness :
    selectionInvariant storeAB ∧
    (∀ img ∈ storeAB.images, img.id ≠ missId) ∧
    (deleteImage missId storeAB = storeAB ∧
      updateImageContent missId ImageUpdate.none storeAB = storeAB ∧
      selectImage missId storeAB = { storeAB with selectedImage := none }) := by
  have hinv : selectionInvariant storeAB := by
    intro sel h
    obtain rfl : wA = sel := by simpa [storeAB] using h
    simp [storeAB]
  exact ⟨hinv, by decide,
    c7_missing_id storeAB missId ImageUpdate.none hinv (by decide)⟩

/-! ## C8: hit-testing is topmost-wins -/

/-- The back-to-front scan returns `none` exactly when no layer's box
contains the point. -/
theorem findTopAux_eq_none (x y : ℚ) :
    ∀ l : List ImageObject,
      findTopAux x y l = none ↔ ∀ img ∈ l, hitBoxCode x y img = false := by
  intro l
  induction l with
  | nil => simp [findTopAux]
  | cons img rest ih =>
    by_cases h : hitBoxCode x y img = true
    · simp [findTopAux, h]
    · have h' : hitBoxCode x y img = false := by simpa using h
      simp [findTopAux, h', ih]

/-- When the back-to-front scan returns a layer, that layer's box contains
the point and no earlier-scanned (i.e. higher) layer's box does. -/
theorem findTopAux_eq_some (x y : ℚ) :
    ∀ (l : List ImageObject) (v : ImageObject), findTopAux x y l = some v →
      hitBoxCode x y v = true ∧
      ∃ pre post, l = pre ++ v :: post ∧
        ∀ u ∈ pre, hitBoxCode x y u = false := by
  intro l
  induction l with
  | nil => intro v h; exact absurd h (by simp [findTopAux])
  | cons img rest ih =>
    intro v h
    by_cases hb : hitBoxCode x y img = true
    · rw [findTopAux, if_pos hb] at h
      obtain rfl : img = v := by simpa using h
      exact ⟨hb, [], rest, rfl, by simp⟩
    · have hb' : hitBoxCode x y img = false := by simpa using hb
      rw [findTopAux, if_neg hb] at h
      obtain ⟨hv, pre, post, hsplit, hpre⟩ := ih v h
      refine ⟨hv, img :: pre, post, by rw [hsplit]; rfl, ?_⟩
      intro u hu
      rcases List.mem_cons.mp hu with rfl | hu2
      · exact hb'
      · exact hpre u hu2

/-- For a nonzero scale, the code's hit box (which reads `scale || 1`)
coincides with the spec's box `[x, x + w*scale] × [y, y + h*scale]`. -/
theorem hitBoxCode_eq_spec (x y : ℚ) (img : ImageObject)
    (h : img.scale ≠ 0) : hitBoxCode x y img = containsPointSpec x y img := by
  have hb : (img.scale == (0 : ℚ)) = false := by simpa using h
  simp [hitBoxCode, containsPointSpec, hb]

/-- C8: `findTopImageAtPoint` is topmost-wins over axis-aligned scaled
bounds (for layers with nonzero scale, where the code's `scale || 1`
fallback is inert): it returns `none` exactly when no layer's box contains
the point inclusively, and when it returns a layer, that layer's box
contains the point and no layer at a greater index (i.e. added later) hits —
in particular, of two overlapping layers at the same point the later one is
returned. -/
theorem c8_topmost_hit (s : ImageStore) (x y : ℚ)
    (hscale : ∀ img ∈ s.images, img.scale ≠ 0) :
    (findTopImageAtPoint x y s = none ↔
      ∀ img ∈ s.images, containsPointSpec x y img = false) ∧
    (∀ v, findTopImageAtPoint x y s = some v →
      containsPointSpec x y v = true ∧
      ∃ pre post, s.images = pre ++ v :: post ∧
        ∀ u ∈ post, containsPointSpec x y u = false) := by
  constructor
  · rw [findTopImageAtPoint, findTopAux_eq_none]
    constructor
    · intro h img hm
      rw [← hitBoxCode_eq_spec x y img (hscale img hm)]
      exact h img (List.mem_reverse.mpr hm)
    · intro h img hm
      have hm' : img ∈ s.images := List.mem_reverse.mp hm
      rw [hitBoxCode_eq_spec x y img (hscale img hm')]
      exact h img hm'
  · intro v hv
    obtain ⟨hhit, pre, post, hsplit, hpre⟩ :=
      findTopAux_eq_some x y s.images.reverse v hv
    have hvmem : v ∈ s.images := by
      rw [← List.mem_reverse, hsplit]
      simp
    refine ⟨by rw [← hitBoxCode_eq_spec x y v (hscale v hvmem)]; exact hhit,
      post.reverse, pre.reverse, ?_, ?_⟩
    · have h2 := congrArg List.reverse hsplit
      rw [List.reverse_reverse] at h2
      rw [h2]
      simp
    · intro u hu
      have hupre : u ∈ pre := List.mem_reverse.mp hu
      have humem : u ∈ s.images := by
        rw [← List.mem_reverse, hsplit]
        simp [hupre]
      rw [← hitBoxCode_eq_spec x y u (hscale u humem)]
      exact hpre u hupre

/-- C8 witness: the characterization applied at the concrete store
`storeAB` and the point (10, 10). -/
theorem c8_topmost_hit_witness :
    (∀ img ∈ storeAB.images, img.scale ≠ 0) ∧
    ((findTopImageAtPoint 10 10 storeAB = none ↔
      ∀ img ∈ storeAB.images, containsPointSpec 10 10 img = false) ∧
    (∀ v, findTopImageAtPoint 10 10 storeAB = some v →
      containsPointSpec 10 10 v = true ∧
      ∃ pre post, storeAB.images = pre ++ v :: post ∧
        ∀ u ∈ post, containsPointSpec 10 10 u = false)) :=
  ⟨by decide, c8_topmost_hit storeAB 10 10 (by decide)⟩

/-! ## C9: displacement guards -/

/-- C9: `applyDisplacement` with a missing source or displacement map is an
atomic no-op: if `sourceId` is null, or `dispImage` is null, or no layer
carries id `sourceId`, or no layer holds `dispImage`, the call returns with
the store unchanged and performs no rendering effect (no surface allocated,
no derived layer created), for every possible outcome of the external
rendering calls. -/
theorem c9_applyDisplacement_guard_noop (s : ImageStore) (o : DispOracle)
    (h : s.displacementState.sourceId = none ∨
      s.displacementState.dispImage = none ∨
      (∀ img ∈ s.images, s.displacementState.sourceId ≠ some img.id) ∨
      (∀ img ∈ s.images, s.displacementState.dispImage ≠ some img.image)) :
    applyDisplacement o s = (s, []) := by
  unfold applyDisplacement
  cases hsid : s.displacementState.sourceId with
  | none => rfl
  | some sid =>
    cases hdi : s.displacementState.dispImage with
    | none => rfl
    | some di =>
      dsimp only
      rcases h with h | h | h | h
      · exact absurd hsid (by rw [h]; simp)
      · exact absurd hdi (by rw [h]; simp)
      · have hfind : s.images.find? (fun img => img.id == sid) = none := by
          rw [List.find?_eq_none]
          intro img hm
          have h2 := h img hm
          rw [hsid] at h2
          simp only [ne_eq, Option.some.injEq] at h2
          simp only [beq_iff_eq]
          exact fun he => h2 he.symm
        by_cases hz : (sid == "") = true
        · rw [if_pos hz]
        · rw [if_neg hz, hfind]
      · have hfind2 : s.images.find? (fun img => img.image == di) = none := by
          rw [List.find?_eq_none]
          intro img hm
          have h2 := h img hm
          rw [hdi] at h2
          simp only [ne_eq, Option.some.injEq] at h2
          simp only [beq_iff_eq]
          exact fun he => h2 he.symm
        by_cases hz : (sid == "") = true
        · rw [if_pos hz]
        · rw [if_neg hz, hfind2]
          cases s.images.find? (fun img => img.id == sid) <;> rfl

/-- A store whose displacement state is entirely empty. -/
def c9Store : ImageStore :=
  ⟨[wA, wB], some wA, wDragActive, wDispNone, false, true, true, true, 800, 600⟩

/-- An arbitrary oracle for the external rendering calls. -/
def c9Oracle : DispOracle := ⟨true, wImgA, missId⟩

/-- C9 witness: with `sourceId = null` the call is a no-op for a concrete
store and oracle. -/
theorem c9_applyDisplacement_guard_noop_witness :
    c9Store.displacementState.sourceId = none ∧
    applyDisplacement c9Oracle c9Store = (c9Store, []) :=
  ⟨rfl, c9_applyDisplacement_guard_noop c9Store c9Oracle (Or.inl rfl)⟩

/-! ## C10: createDerivedImage frame conditions -/

/-- C10: `createDerivedImage` appends a new layer at the end of `images`
(top of z-order) with `x=0, y=0, scale=1, rotation=0` (and no
opacity/blend-mode fields), carrying the freshly generated id — ids stay
pairwise distinct when the generated id is fresh — and leaves
`selectedImage`, `dragState`, `displacementState`, and `isOverlapping`
unchanged: in particular, unlike `addImage`, the derived layer does not
become the selected layer. -/
theorem c10_createDerivedImage (s : ImageStore) (newId nm : String)
    (img : ImgHandle)
    (hnodup : (s.images.map (fun t => t.id)).Nodup)
    (hfresh : ∀ t ∈ s.images, t.id ≠ newId) :
    (createDerivedImage newId img nm s).images =
      s.images ++
        [{ id := newId, image := img, name := nm, x := 0, y := 0, scale := 1,
           rotation := 0, blendMode := none, opacity := none }] ∧
    ((createDerivedImage newId img nm s).images.map (fun t => t.id)).Nodup ∧
    (createDerivedImage newId img nm s).selectedImage = s.selectedImage ∧
    (createDerivedImage newId img nm s).dragState = s.dragState ∧
    (createDerivedImage newId img nm s).displacementState =
      s.displacementState ∧
    (createDerivedImage newId img nm s).isOverlapping = s.isOverlapping := by
  refine ⟨rfl, ?_, rfl, rfl, rfl, rfl⟩
  have hgoal : (createDerivedImage newId img nm s).images =
      s.images ++
        [{ id := newId, image := img, name := nm, x := 0, y := 0, scale := 1,
           rotation := 0, blendMode := none, opacity := none }] := rfl
  rw [hgoal, List.map_append, List.nodup_append]
  refine ⟨hnodup, by simp, ?_⟩
  intro a ha hb
  simp only [List.mem_map] at ha
  obtain ⟨t, ht, rfl⟩ := ha
  simp only [List.map_cons, List.map_nil, List.mem_singleton] at hb
  exact hfresh t ht hb

/-- C10 witness: the frame conditions at the concrete store `storeAB` with
a fresh id. -/
theorem c10_createDerivedImage_witness :
    (storeAB.images.map (fun t => t.id)).Nodup ∧
    (∀ t ∈ storeAB.images, t.id ≠ missId) ∧
    ((createDerivedImage missId wImgA derivedName storeAB).images =
      storeAB.images ++
        [{ id := missId, image := wImgA, name := derivedName, x := 0, y := 0,
           scale := 1, rotation := 0, blendMode := none, opacity := none }] ∧
    ((createDerivedImage missId wImgA derivedName storeAB).images.map
        (fun t => t.id)).Nodup ∧
    (createDerivedImage missId wImgA derivedName storeAB).selectedImage =
      storeAB.selectedImage ∧
    (createDerivedImage missId wImgA derivedName storeAB).dragState =
      storeAB.dragState ∧
    (createDerivedImage missId wImgA derivedName storeAB).displacementState =
      storeAB.displacementState ∧
    (createDerivedImage missId wImgA derivedName storeAB).isOverlapping =
      storeAB.isOverlapping) :=
  ⟨by decide, by decide,
    c10_createDerivedImage storeAB missId derivedName wImgA (by decide)
      (by decide)⟩

end P5
